import Mathlib

/-
Verification of the CHIP-8 interpreter core (Go package chip8, file chip8.go).
Machine integers are modelled as Nat with explicit reduction modulo 2^8 or
2^16 exactly where the Go code performs fixed-width arithmetic.  Go runtime
faults (array index out of range, slice bounds out of range, indexing an
empty slice) and the busy-wait that never terminates are modelled by Option:
none means the operation does not complete normally.
-/

set_option maxHeartbeats 1000000
set_option maxRecDepth 100000

namespace Chip8Emu

/-- Pointwise update of a Nat-valued map, modelling assignment to one array cell. -/
def updF (f : Nat → Nat) (i v : Nat) : Nat → Nat :=
  fun j => if j = i then v else f j

/-- Machine state, one field per field of the Go struct Chip8.
V is the register file (16 bytes), I the index register, PC the program
counter, SP the stack pointer, DT and ST the two timers, STACK the 16-entry
return stack, FRAMEBUFFER the 64x32 row-major pixel grid, RAM the 4096-byte
memory and KEYBOARD the 16-bit key latch (bit 15 - k holds key k). -/
structure Chip8 where
  V : Nat → Nat
  I : Nat
  PC : Nat
  SP : Nat
  DT : Nat
  ST : Nat
  STACK : Nat → Nat
  FRAMEBUFFER : Nat → Bool
  RAM : Nat → Nat
  KEYBOARD : Nat

/-- Translation of IsKeyPressed: keys above 15 are reported unpressed,
otherwise bit 16-1-key of the KEYBOARD word is tested. -/
def IsKeyPressed (cpu : Chip8) (key : Nat) : Bool :=
  if key > 15 then false else Nat.testBit cpu.KEYBOARD (15 - key)

/-- Translation of IsAnyKeyPressed: the KEYBOARD word is nonzero. -/
def IsAnyKeyPressed (cpu : Chip8) : Bool :=
  decide (cpu.KEYBOARD > 0)

/-- Translation of PressedKeys: the loop runs k = 0,...,14 (the Go upper
bound is k < 0xF) and collects the pressed ones in ascending order. -/
def PressedKeys (cpu : Chip8) : List Nat :=
  (List.range 15).filter (fun k => IsKeyPressed cpu k)

/-- Translation of StackPush: writing STACK[SP] faults when SP is at or
beyond capacity 16, otherwise the value is stored and SP incremented. -/
def StackPush (cpu : Chip8) (value : Nat) : Option Chip8 :=
  if cpu.SP < 16 then
    some { cpu with STACK := updF cpu.STACK cpu.SP value, SP := (cpu.SP + 1) % 256 }
  else none

/-- Translation of StackPop: SP is decremented first (uint8 wraparound, so
SP = 0 becomes 255) and reading STACK at the new SP faults when it is at or
beyond capacity 16. -/
def StackPop (cpu : Chip8) : Option (Chip8 × Nat) :=
  let sp := (cpu.SP + 255) % 256
  if sp < 16 then some ({ cpu with SP := sp }, cpu.STACK sp) else none

/-- Framebuffer location written by sprite row dy, loop index i: the x and y
sums are formed in uint8 (mod 256) before the reduction mod 64 and mod 32,
exactly as in the Go DrawSprite. -/
def locOf (vx vy dy i : Nat) : Nat :=
  (((vy + dy) % 256) % 32) * 64 + (((vx + i) % 256) % 64)

/-- One iteration of the inner DrawSprite loop: bit 8-1-i of the row byte is
the sprite pixel; when set, the framebuffer cell is inverted and the flag
accumulator becomes 1 if the cell was already lit. -/
def drawPixel (vx vy dy v i : Nat) (p : (Nat → Bool) × Nat) : (Nat → Bool) × Nat :=
  if Nat.testBit v (7 - i) then
    ((fun j => if j = locOf vx vy dy i then !(p.1 (locOf vx vy dy i)) else p.1 j),
     if p.1 (locOf vx vy dy i) then 1 else p.2)
  else p

/-- The inner DrawSprite loop, processing indices i, i+1, ..., i+fuel-1. -/
def drawPixelsAux (vx vy dy v : Nat) : Nat → Nat → (Nat → Bool) × Nat → (Nat → Bool) × Nat
  | _, 0, p => p
  | i, fuel + 1, p => drawPixelsAux vx vy dy v (i + 1) fuel (drawPixel vx vy dy v i p)

/-- The outer DrawSprite loop over the sprite rows, dy counting from the
given start. -/
def drawRows (vx vy : Nat) : Nat → List Nat → (Nat → Bool) × Nat → (Nat → Bool) × Nat
  | _, [], p => p
  | dy, v :: rest, p => drawRows vx vy (dy + 1) rest (drawPixelsAux vx vy dy v 0 8 p)

/-- Translation of DrawSprite: V[0xF] is cleared, all rows are blitted, and
the resulting collision flag is stored in V[0xF]. -/
def DrawSprite (cpu : Chip8) (vx vy : Nat) (bytes : List Nat) : Chip8 :=
  let p := drawRows vx vy 0 bytes (cpu.FRAMEBUFFER, 0)
  { cpu with FRAMEBUFFER := p.1, V := updF cpu.V 15 p.2 }

/-- Translation of DecodeExecute.  The opcode dispatch is the switch of the
source on the two exact words followed by the chain of masked comparisons;
mask tests on the 16-bit word are written arithmetically (the top nibble is
instruction / 4096, the low byte instruction % 256, the low nibble
instruction % 16, and x, y are the middle nibbles).  rnd models the byte
drawn from the random source in the Cxkk branch. -/
def DecodeExecute (cpu : Chip8) (instruction rnd : Nat) : Option Chip8 :=
  if instruction = 0x00E0 then
    some { cpu with FRAMEBUFFER := fun _ => false }
  else if instruction = 0x00EE then
    (StackPop cpu).map (fun cv => { cv.1 with PC := cv.2 })
  else
    let x := instruction / 256 % 16
    let y := instruction / 16 % 16
    if instruction / 4096 = 1 then
      some { cpu with PC := instruction % 4096 }
    else if instruction / 4096 = 2 then
      (StackPush cpu cpu.PC).map (fun c => { c with PC := instruction % 4096 })
    else if instruction / 4096 = 3 then
      some (if cpu.V x = instruction % 256 then { cpu with PC := (cpu.PC + 2) % 65536 } else cpu)
    else if instruction / 4096 = 4 then
      some (if cpu.V x ≠ instruction % 256 then { cpu with PC := (cpu.PC + 2) % 65536 } else cpu)
    else if instruction / 4096 = 5 ∧ instruction % 16 = 0 then
      some (if cpu.V x = cpu.V y then { cpu with PC := (cpu.PC + 2) % 65536 } else cpu)
    else if instruction / 4096 = 6 then
      some { cpu with V := updF cpu.V x (instruction % 256) }
    else if instruction / 4096 = 7 then
      some { cpu with V := updF cpu.V x ((cpu.V x + instruction % 256) % 256) }
    else if instruction / 4096 = 8 ∧ instruction % 16 = 0 then
      some { cpu with V := updF cpu.V x (cpu.V y) }
    else if instruction / 4096 = 8 ∧ instruction % 16 = 1 then
      some { cpu with V := updF cpu.V x (Nat.lor (cpu.V x) (cpu.V y)) }
    else if instruction / 4096 = 8 ∧ instruction % 16 = 2 then
      some { cpu with V := updF cpu.V x (Nat.land (cpu.V x) (cpu.V y)) }
    else if instruction / 4096 = 8 ∧ instruction % 16 = 3 then
      some { cpu with V := updF cpu.V x (Nat.xor (cpu.V x) (cpu.V y)) }
    else if instruction / 4096 = 8 ∧ instruction % 16 = 4 then
      let sum := (cpu.V x + cpu.V y) % 65536
      some { cpu with V := updF (updF cpu.V 15 (if sum > 255 then 1 else 0)) x (sum % 256) }
    else if instruction / 4096 = 8 ∧ instruction % 16 = 5 then
      let vx := cpu.V x
      let vy := cpu.V y
      some { cpu with V := updF (updF cpu.V x ((vx + 256 - vy) % 256)) 15 (if vx ≥ vy then 1 else 0) }
    else if instruction / 4096 = 8 ∧ instruction % 16 = 6 then
      some { cpu with V := updF (updF cpu.V x (cpu.V x / 2)) 15 (cpu.V x % 2) }
    else if instruction / 4096 = 8 ∧ instruction % 16 = 7 then
      let vx := cpu.V x
      let vy := cpu.V y
      some { cpu with V := updF (updF cpu.V x ((vy + 256 - vx) % 256)) 15 (if vy ≥ vx then 1 else 0) }
    else if instruction / 4096 = 8 ∧ instruction % 16 = 14 then
      some { cpu with V := updF (updF cpu.V x (cpu.V x * 2 % 256)) 15 (cpu.V x / 128 % 2) }
    else if instruction / 4096 = 9 ∧ instruction % 16 = 0 then
      some (if cpu.V y ≠ cpu.V x then { cpu with PC := (cpu.PC + 2) % 65536 } else cpu)
    else if instruction / 4096 = 10 then
      some { cpu with I := instruction % 4096 }
    else if instruction / 4096 = 11 then
      some { cpu with PC := (instruction % 4096 + cpu.V 0) % 65536 }
    else if instruction / 4096 = 12 then
      some { cpu with V := updF cpu.V x (Nat.land (rnd % 256) (instruction % 256)) }
    else if instruction / 4096 = 13 then
      if cpu.I ≤ (cpu.I + instruction % 16) % 65536 ∧ (cpu.I + instruction % 16) % 65536 ≤ 4096 then
        some (DrawSprite cpu (cpu.V x) (cpu.V y)
          ((List.range (instruction % 16)).map (fun k => cpu.RAM (cpu.I + k))))
      else none
    else if instruction / 4096 = 14 ∧ instruction % 256 = 0x9E then
      some (if IsKeyPressed cpu (cpu.V x) then { cpu with PC := (cpu.PC + 2) % 65536 } else cpu)
    else if instruction / 4096 = 14 ∧ instruction % 256 = 0xA1 then
      some (if ! IsKeyPressed cpu (cpu.V x) then { cpu with PC := (cpu.PC + 2) % 65536 } else cpu)
    else if instruction / 4096 = 15 ∧ instruction % 256 = 0x07 then
      some { cpu with V := updF cpu.V x cpu.DT }
    else if instruction / 4096 = 15 ∧ instruction % 256 = 0x0A then
      if IsAnyKeyPressed cpu then
        match PressedKeys cpu with
        | [] => none
        | k :: _ => some { cpu with V := updF cpu.V x k }
      else none
    else if instruction / 4096 = 15 ∧ instruction % 256 = 0x15 then
      some { cpu with DT := cpu.V x }
    else if instruction / 4096 = 15 ∧ instruction % 256 = 0x18 then
      some { cpu with ST := cpu.V x }
    else if instruction / 4096 = 15 ∧ instruction % 256 = 0x1E then
      some { cpu with I := (cpu.I + cpu.V x) % 65536 }
    else if instruction / 4096 = 15 ∧ instruction % 256 = 0x29 then
      some { cpu with I := cpu.V x * 5 % 65536 }
    else if instruction / 4096 = 15 ∧ instruction % 256 = 0x33 then
      if cpu.I < 4096 ∧ (cpu.I + 1) % 65536 < 4096 ∧ (cpu.I + 2) % 65536 < 4096 then
        let ram1 := updF cpu.RAM cpu.I (cpu.V x / 100)
        let ram2 := updF ram1 ((cpu.I + 1) % 65536) (cpu.V x / 10 % 10)
        some { cpu with RAM := updF ram2 ((cpu.I + 2) % 65536) (cpu.V x % 10) }
      else none
    else if instruction / 4096 = 15 ∧ instruction % 256 = 0x55 then
      if cpu.I ≤ (cpu.I + x + 1) % 65536 ∧ (cpu.I + x + 1) % 65536 ≤ 4096 then
        some { cpu with RAM := fun a => if cpu.I ≤ a ∧ a < cpu.I + x + 1 then cpu.V (a - cpu.I) else cpu.RAM a }
      else none
    else if instruction / 4096 = 15 ∧ instruction % 256 = 0x65 then
      if cpu.I ≤ (cpu.I + x + 1) % 65536 ∧ (cpu.I + x + 1) % 65536 ≤ 4096 then
        some { cpu with V := fun i => if i < x + 1 then cpu.RAM (cpu.I + i) else cpu.V i }
      else none
    else
      some cpu

/-- Translation of Fetch: a program counter below 0x200 is a fatal
corruption, reads of RAM at PC and PC+1 fault outside the 4096 bytes, and
PC advances by 2 before decode. -/
def Fetch (cpu : Chip8) : Option (Chip8 × Nat) :=
  if cpu.PC < 0x200 then none
  else if cpu.PC < 4096 ∧ (cpu.PC + 1) % 65536 < 4096 then
    some ({ cpu with PC := (cpu.PC + 2) % 65536 },
      Nat.lor (Nat.shiftLeft (cpu.RAM cpu.PC) 8) (cpu.RAM ((cpu.PC + 1) % 65536)))
  else none

/-- Translation of Step: fetch then decode/execute. -/
def Step (cpu : Chip8) (rnd : Nat) : Option Chip8 :=
  (Fetch cpu).bind (fun ci => DecodeExecute ci.1 ci.2 rnd)

/-- Translation of UpdateTimers: each timer decrements only when positive. -/
def UpdateTimers (cpu : Chip8) : Chip8 :=
  { cpu with ST := if cpu.ST > 0 then cpu.ST - 1 else cpu.ST,
             DT := if cpu.DT > 0 then cpu.DT - 1 else cpu.DT }

/-- A concrete machine state with everything zeroed and the screen cleared,
used to instantiate theorems at explicit inputs. -/
def zeroState : Chip8 :=
  { V := fun _ => 0, I := 0, PC := 0x200, SP := 0, DT := 0, ST := 0,
    STACK := fun _ => 0, FRAMEBUFFER := fun _ => false, RAM := fun _ => 0, KEYBOARD := 0 }

/-- C1: the add-registers opcode 8xy4 computes the 9-bit sum, sets V[0xF]
to 1 exactly when the sum exceeds 255, and stores the low 8 bits in V[x],
for any destination register other than 0xF. -/
theorem addRegisters_carry_and_low_bits (s : Chip8) (rnd x y a b : Nat)
    (hx : x < 16) (hy : y < 16) (hxF : x ≠ 15)
    (ha : s.V x = a) (hb : s.V y = b) (ha2 : a < 256) (hb2 : b < 256) :
    ∃ t, DecodeExecute s (0x8004 + x * 256 + y * 16) rnd = some t ∧
      t.V 15 = (if a + b > 255 then 1 else 0) ∧ t.V x = (a + b) % 256 := by
  have h0 : ¬(0x8004 + x * 256 + y * 16 = 0x00E0) := by omega
  have h0b : ¬(0x8004 + x * 256 + y * 16 = 0x00EE) := by omega
  have hd : (0x8004 + x * 256 + y * 16) / 4096 = 8 := by omega
  have hm : (0x8004 + x * 256 + y * 16) % 16 = 4 := by omega
  have hxe : (0x8004 + x * 256 + y * 16) / 256 % 16 = x := by omega
  have hye : (0x8004 + x * 256 + y * 16) / 16 % 16 = y := by omega
  have hsum : (s.V x + s.V y) % 65536 = a + b := by
    rw [ha, hb]; exact Nat.mod_eq_of_lt (by omega)
  refine ⟨{ s with V := updF (updF s.V 15 (if a + b > 255 then 1 else 0)) x ((a + b) % 256) },
    ?_, ?_, ?_⟩
  · simp [DecodeExecute, h0, h0b, hd, hm, hxe, hye, hsum]
  · have hne : ¬((15 : Nat) = x) := by omega
    simp [updF, hne]
  · simp [updF]

/-- Witness for C1 at a concrete input: registers 200 and 100 overflow,
the flag becomes 1 and the destination receives 44. -/
theorem addRegisters_carry_and_low_bits_witness :
    ∃ t, DecodeExecute
        { zeroState with V := fun i => if i = 1 then 200 else if i = 2 then 100 else 0 }
        (0x8004 + 1 * 256 + 2 * 16) 0 = some t ∧
      t.V 15 = (if 200 + 100 > 255 then 1 else 0) ∧ t.V 1 = (200 + 100) % 256 :=
  addRegisters_carry_and_low_bits _ 0 1 2 200 100 (by decide) (by decide) (by decide)
    (by decide) (by decide) (by decide) (by decide)

/-- C2 (amended): the memory-addressing opcodes do not wrap addresses
modulo 4096; each completes exactly when every effective address is inside
the 4096-byte memory, and faults (Go bounds panic, modelled none) otherwise:
Fx33 needs I, I+1, I+2 in range, Dxyn needs the n sprite bytes in range, and
Fx55 and Fx65 need the x+1 transferred bytes in range. -/
theorem memory_ops_fault_outside_bounds (s : Chip8) (rnd x : Nat)
    (hx : x < 16) (hI : s.I < 65536) :
    ((DecodeExecute s (0xF033 + x * 256) rnd).isSome = true ↔ s.I + 2 < 4096) ∧
    (∀ y n, y < 16 → n < 16 →
      ((DecodeExecute s (0xD000 + x * 256 + y * 16 + n) rnd).isSome = true ↔
        s.I + n ≤ 4096)) ∧
    ((DecodeExecute s (0xF055 + x * 256) rnd).isSome = true ↔ s.I + x + 1 ≤ 4096) ∧
    ((DecodeExecute s (0xF065 + x * 256) rnd).isSome = true ↔ s.I + x + 1 ≤ 4096) := by
  refine ⟨?_, ?_, ?_, ?_⟩
  · have h0 : ¬(0xF033 + x * 256 = 0x00E0) := by omega
    have h0b : ¬(0xF033 + x * 256 = 0x00EE) := by omega
    have hd : (0xF033 + x * 256) / 4096 = 15 := by omega
    have hm : (0xF033 + x * 256) % 256 = 0x33 := by omega
    simp only [DecodeExecute, h0, h0b, hd, hm, if_false, if_true]
    norm_num
    omega
  · intro y n hy hn
    have h0 : ¬(0xD000 + x * 256 + y * 16 + n = 0x00E0) := by omega
    have h0b : ¬(0xD000 + x * 256 + y * 16 + n = 0x00EE) := by omega
    have hd : (0xD000 + x * 256 + y * 16 + n) / 4096 = 13 := by omega
    have hne : (0xD000 + x * 256 + y * 16 + n) % 16 = n := by omega
    simp only [DecodeExecute, h0, h0b, hd, hne, if_false, if_true]
    norm_num
    omega
  · have h0 : ¬(0xF055 + x * 256 = 0x00E0) := by omega
    have h0b : ¬(0xF055 + x * 256 = 0x00EE) := by omega
    have hd : (0xF055 + x * 256) / 4096 = 15 := by omega
    have hm : (0xF055 + x * 256) % 256 = 0x55 := by omega
    have hxe : (0xF055 + x * 256) / 256 % 16 = x := by omega
    simp only [DecodeExecute, h0, h0b, hd, hm, hxe, if_false, if_true]
    norm_num
    omega
  · have h0 : ¬(0xF065 + x * 256 = 0x00E0) := by omega
    have h0b : ¬(0xF065 + x * 256 = 0x00EE) := by omega
    have hd : (0xF065 + x * 256) / 4096 = 15 := by omega
    have hm : (0xF065 + x * 256) % 256 = 0x65 := by omega
    have hxe : (0xF065 + x * 256) / 256 % 16 = x := by omega
    simp only [DecodeExecute, h0, h0b, hd, hm, hxe, if_false, if_true]
    norm_num
    omega

/-- Witness for C2 at a concrete input: with I = 100 all four memory
opcodes are in range and complete. -/
theorem memory_ops_fault_outside_bounds_witness :
    ((DecodeExecute { zeroState with I := 100 } (0xF033 + 0 * 256) 0).isSome = true ↔
      { zeroState with I := 100 }.I + 2 < 4096) ∧
    ((DecodeExecute { zeroState with I := 100 } (0xD000 + 0 * 256 + 1 * 16 + 5) 0).isSome = true ↔
      { zeroState with I := 100 }.I + 5 ≤ 4096) :=
  ⟨(memory_ops_fault_outside_bounds { zeroState with I := 100 } 0 0 (by decide) (by decide)).1,
   (memory_ops_fault_outside_bounds { zeroState with I := 100 } 0 0 (by decide)
      (by decide)).2.1 1 5 (by decide) (by decide)⟩

/-- Counterexample for C2 as stated: with the index register at 4096 the
BCD-store opcode Fx33 does not wrap to address 0 and complete; it faults. -/
theorem bcd_store_faults_at_4096 :
    DecodeExecute { zeroState with I := 4096 } 0xF033 0 = none := by
  rfl

/-- C3 at the failing input: add-registers 8F14 with V[0xF] = 200 and
V[1] = 100 leaves V[15] holding the low byte of the sum (44), because the
result write to Vx comes after the flag write, so the flag value 1 is lost
when x = 0xF. -/
theorem addRegisters_result_overwrites_flag :
    (DecodeExecute { zeroState with V := fun i => if i = 15 then 200 else if i = 1 then 100 else 0 }
      0x8F14 0).map (fun t => t.V 15) = some 44 := by
  rfl

/-- C9 at the failing input: with only key 0xF held, the block-until-key
opcode Fx0A passes the any-key test but PressedKeys omits key 0xF (its loop
stops at 0xE), so indexing the empty list faults. -/
theorem waitKey_faults_when_only_key_F_held :
    DecodeExecute { zeroState with KEYBOARD := 1 } 0xF00A 0 = none ∧
    IsAnyKeyPressed { zeroState with KEYBOARD := 1 } = true ∧
    IsKeyPressed { zeroState with KEYBOARD := 1 } 15 = true ∧
    PressedKeys { zeroState with KEYBOARD := 1 } = [] := by
  exact ⟨rfl, by decide, by decide, by decide⟩

/-- Disjunction of every dispatch test of DecodeExecute: the two exact
words, the 4-bit top-nibble families, the 0xF00F families and the 0xF0FF
families, exactly as tried by the source chain. -/
def KnownOp (i : Nat) : Prop :=
  i = 0x00E0 ∨ i = 0x00EE ∨ i / 4096 = 1 ∨ i / 4096 = 2 ∨ i / 4096 = 3 ∨
  i / 4096 = 4 ∨ (i / 4096 = 5 ∧ i % 16 = 0) ∨ i / 4096 = 6 ∨ i / 4096 = 7 ∨
  (i / 4096 = 8 ∧ i % 16 = 0) ∨ (i / 4096 = 8 ∧ i % 16 = 1) ∨
  (i / 4096 = 8 ∧ i % 16 = 2) ∨ (i / 4096 = 8 ∧ i % 16 = 3) ∨
  (i / 4096 = 8 ∧ i % 16 = 4) ∨ (i / 4096 = 8 ∧ i % 16 = 5) ∨
  (i / 4096 = 8 ∧ i % 16 = 6) ∨ (i / 4096 = 8 ∧ i % 16 = 7) ∨
  (i / 4096 = 8 ∧ i % 16 = 14) ∨ (i / 4096 = 9 ∧ i % 16 = 0) ∨
  i / 4096 = 10 ∨ i / 4096 = 11 ∨ i / 4096 = 12 ∨ i / 4096 = 13 ∨
  (i / 4096 = 14 ∧ i % 256 = 0x9E) ∨ (i / 4096 = 14 ∧ i % 256 = 0xA1) ∨
  (i / 4096 = 15 ∧ i % 256 = 0x07) ∨ (i / 4096 = 15 ∧ i % 256 = 0x0A) ∨
  (i / 4096 = 15 ∧ i % 256 = 0x15) ∨ (i / 4096 = 15 ∧ i % 256 = 0x18) ∨
  (i / 4096 = 15 ∧ i % 256 = 0x1E) ∨ (i / 4096 = 15 ∧ i % 256 = 0x29) ∨
  (i / 4096 = 15 ∧ i % 256 = 0x33) ∨ (i / 4096 = 15 ∧ i % 256 = 0x55) ∨
  (i / 4096 = 15 ∧ i % 256 = 0x65)

instance (i : Nat) : Decidable (KnownOp i) := by
  unfold KnownOp
  exact inferInstance

/-- Helper: decode of a word not matching any dispatch test returns the
state unchanged. -/
theorem decodeExecute_unknown (s : Chip8) (i rnd : Nat) (h : ¬ KnownOp i) :
    DecodeExecute s i rnd = some s := by
  simp only [KnownOp, not_or] at h
  obtain ⟨h1, h2, h3, h4, h5, h6, h7, h8, h9, h10, h11, h12, h13, h14, h15, h16, h17,
    h18, h19, h20, h21, h22, h23, h24, h25, h26, h27, h28, h29, h30, h31, h32, h33,
    h34⟩ := h
  simp only [DecodeExecute]
  rw [if_neg h1, if_neg h2, if_neg h3, if_neg h4, if_neg h5, if_neg h6, if_neg h7,
    if_neg h8, if_neg h9, if_neg h10, if_neg h11, if_neg h12, if_neg h13, if_neg h14,
    if_neg h15, if_neg h16, if_neg h17, if_neg h18, if_neg h19, if_neg h20, if_neg h21,
    if_neg h22, if_neg h23, if_neg h24, if_neg h25, if_neg h26, if_neg h27, if_neg h28,
    if_neg h29, if_neg h30, if_neg h31, if_neg h32, if_neg h33, if_neg h34]

/-- C6: an instruction word matching no opcode mask decodes as a silent
no-op leaving the whole machine state unchanged, and a Step over such a
word only advances the program counter by the +2 of the fetch. -/
theorem unknown_opcode_is_noop :
    (∀ (s : Chip8) (i rnd : Nat), ¬ KnownOp i → DecodeExecute s i rnd = some s) ∧
    (∀ (s : Chip8) (rnd : Nat), 0x200 ≤ s.PC → s.PC + 1 < 4096 →
      ¬ KnownOp (Nat.lor (Nat.shiftLeft (s.RAM s.PC) 8) (s.RAM ((s.PC + 1) % 65536))) →
      Step s rnd = some { s with PC := (s.PC + 2) % 65536 }) := by
  refine ⟨decodeExecute_unknown, ?_⟩
  intro s rnd hlo hhi hunk
  have h1 : ¬(s.PC < 0x200) := by omega
  have h2 : s.PC < 4096 ∧ (s.PC + 1) % 65536 < 4096 := by omega
  simp only [Step, Fetch, h1, h2, if_true, if_false, Option.bind_some, and_self,
    ite_true, ite_false]
  exact decodeExecute_unknown _ _ _ hunk

/-- A machine whose RAM holds the unknown word 0x0123 at the reset PC. -/
def unknownWordState : Chip8 :=
  { zeroState with RAM := fun a => if a = 0x200 then 0x01 else if a = 0x201 then 0x23 else 0 }

/-- Witness for C6 at a concrete input: word 0x0123 matches no mask, and a
machine whose RAM holds 0x01 0x23 at PC steps over it changing only PC. -/
theorem unknown_opcode_is_noop_witness :
    DecodeExecute zeroState 0x0123 0 = some zeroState ∧
    Step unknownWordState 0 = some { unknownWordState with PC := (0x200 + 2) % 65536 } :=
  ⟨unknown_opcode_is_noop.1 zeroState 0x0123 0 (by decide),
   unknown_opcode_is_noop.2 unknownWordState 0 (by decide) (by decide) (by decide)⟩

/-- C7: a call pushes the already-advanced program counter and the matching
return restores it exactly, at any stack depth below the capacity of 16; a
call pushed with the stack already holding 16 frames faults (stack
overflow), and a return with stack pointer 0 faults (stack underflow). -/
theorem call_return_restores_pc (s : Chip8) (rnd : Nat) :
    (∀ nnn, nnn < 4096 → s.SP < 16 →
      ((DecodeExecute s (0x2000 + nnn) rnd).bind
        (fun t => DecodeExecute t 0x00EE rnd)).map Chip8.PC = some s.PC) ∧
    (∀ nnn, nnn < 4096 → s.SP = 16 → DecodeExecute s (0x2000 + nnn) rnd = none) ∧
    (s.SP = 0 → DecodeExecute s 0x00EE rnd = none) := by
  refine ⟨?_, ?_, ?_⟩
  · intro nnn hn hsp
    have h0 : ¬(0x2000 + nnn = 0x00E0) := by omega
    have h0b : ¬(0x2000 + nnn = 0x00EE) := by omega
    have hd : (0x2000 + nnn) / 4096 = 2 := by omega
    have hsp2 : ((s.SP + 1) % 256 + 255) % 256 = s.SP := by omega
    have hsp3 : (s.SP + 1) % 256 < 16 → True := fun _ => trivial
    simp only [DecodeExecute, StackPush, StackPop, h0, h0b, hd, hsp, if_true, if_false,
      ite_true, ite_false, if_pos hsp, Option.map_some, Option.bind_some, hsp2, reduceIte]
    norm_num [hsp2, hsp, updF]
  · intro nnn hn hsp
    have h0 : ¬(0x2000 + nnn = 0x00E0) := by omega
    have h0b : ¬(0x2000 + nnn = 0x00EE) := by omega
    have hd : (0x2000 + nnn) / 4096 = 2 := by omega
    simp [DecodeExecute, StackPush, h0, h0b, hd, hsp]
  · intro hsp
    simp [DecodeExecute, StackPop, hsp]

/-- Witness for C7 at a concrete input: from the zero state (SP = 0) a call
to 0x300 followed by return yields PC = 0x200 again; a state with SP = 16
overflows on call; the zero state underflows on return. -/
theorem call_return_restores_pc_witness :
    ((DecodeExecute zeroState (0x2000 + 0x300) 0).bind
      (fun t => DecodeExecute t 0x00EE 0)).map Chip8.PC = some zeroState.PC ∧
    DecodeExecute { zeroState with SP := 16 } (0x2000 + 0x300) 0 = none ∧
    DecodeExecute zeroState 0x00EE 0 = none :=
  ⟨(call_return_restores_pc zeroState 0).1 0x300 (by decide) (by decide),
   (call_return_restores_pc { zeroState with SP := 16 } 0).2.1 0x300 (by decide) rfl,
   (call_return_restores_pc zeroState 0).2.2 rfl⟩

/-- C8 (amended): the key-skip opcodes test IsKeyPressed of the raw register
value without masking to 4 bits: for a register value at most 15 the skip
happens exactly when the corresponding latch bit is set (Ex9E) or clear
(ExA1); for a register value above 15 Ex9E never skips and ExA1 always
skips, regardless of the latch. -/
theorem key_skip_uses_unmasked_register (s : Chip8) (rnd x : Nat) (hx : x < 16) :
    (s.V x ≤ 15 →
      (((DecodeExecute s (0xE09E + x * 256) rnd).map Chip8.PC =
          some ((s.PC + 2) % 65536)) ↔ Nat.testBit s.KEYBOARD (15 - s.V x) = true) ∧
      (((DecodeExecute s (0xE0A1 + x * 256) rnd).map Chip8.PC =
          some ((s.PC + 2) % 65536)) ↔ ¬ Nat.testBit s.KEYBOARD (15 - s.V x) = true)) ∧
    (15 < s.V x →
      DecodeExecute s (0xE09E + x * 256) rnd = some s ∧
      (DecodeExecute s (0xE0A1 + x * 256) rnd).map Chip8.PC = some ((s.PC + 2) % 65536)) := by
  have h9E0 : ¬(0xE09E + x * 256 = 0x00E0) := by omega
  have h9E0b : ¬(0xE09E + x * 256 = 0x00EE) := by omega
  have h9Ed : (0xE09E + x * 256) / 4096 = 14 := by omega
  have h9Em : (0xE09E + x * 256) % 256 = 0x9E := by omega
  have h9Ex : (0xE09E + x * 256) / 256 % 16 = x := by omega
  have hA10 : ¬(0xE0A1 + x * 256 = 0x00E0) := by omega
  have hA10b : ¬(0xE0A1 + x * 256 = 0x00EE) := by omega
  have hA1d : (0xE0A1 + x * 256) / 4096 = 14 := by omega
  have hA1m : (0xE0A1 + x * 256) % 256 = 0xA1 := by omega
  have hA1x : (0xE0A1 + x * 256) / 256 % 16 = x := by omega
  have hpc : ¬(s.PC = (s.PC + 2) % 65536) := by omega
  refine ⟨fun hle => ⟨?_, ?_⟩, fun hgt => ⟨?_, ?_⟩⟩
  · simp only [DecodeExecute, IsKeyPressed, h9E0, h9E0b, h9Ed, h9Em, h9Ex, if_true,
      if_false, ite_true, ite_false, reduceIte, if_neg (by omega : ¬(s.V x > 15))]
    by_cases hb : Nat.testBit s.KEYBOARD (15 - s.V x) <;> simp [hb, hpc]
  · simp only [DecodeExecute, IsKeyPressed, hA10, hA10b, hA1d, hA1m, hA1x, if_true,
      if_false, ite_true, ite_false, reduceIte, if_neg (by omega : ¬(s.V x > 15))]
    by_cases hb : Nat.testBit s.KEYBOARD (15 - s.V x) <;> simp [hb, hpc]
  · simp [DecodeExecute, IsKeyPressed, h9E0, h9E0b, h9Ed, h9Em, h9Ex, hgt]
  · simp [DecodeExecute, IsKeyPressed, hA10, hA10b, hA1d, hA1m, hA1x, hgt]

/-- A machine with V1 = 2 and only key 2 latched (KEYBOARD bit 13). -/
def keyState2 : Chip8 :=
  { zeroState with V := fun i => if i = 1 then 2 else 0, KEYBOARD := 8192 }

/-- A machine with V1 = 0x12 and only key 2 latched (KEYBOARD bit 13). -/
def keyState18 : Chip8 :=
  { zeroState with V := fun i => if i = 1 then 18 else 0, KEYBOARD := 8192 }

/-- Witness for C8 at concrete inputs: with key 2 latched and V1 = 2 the
Ex9E skip fires, and with V1 = 18 (above 15) Ex9E leaves the state alone. -/
theorem key_skip_uses_unmasked_register_witness :
    (((DecodeExecute keyState2 (0xE09E + 1 * 256) 0).map Chip8.PC =
        some ((keyState2.PC + 2) % 65536)) ↔
      Nat.testBit keyState2.KEYBOARD (15 - keyState2.V 1) = true) ∧
    DecodeExecute keyState18 (0xE09E + 1 * 256) 0 = some keyState18 :=
  ⟨((key_skip_uses_unmasked_register keyState2 0 1 (by decide)).1 (by decide)).1,
   ((key_skip_uses_unmasked_register keyState18 0 1 (by decide)).2 (by decide)).1⟩

/-- Counterexample for C8 as stated: with V1 = 0x12 and the latch bit for
key 0x12 AND 0xF = 2 set, Ex9E does not skip although the claimed latch
lookup is true, because IsKeyPressed treats every value above 15 as
unpressed instead of masking it. -/
theorem key_skip_claim_false_for_large_register :
    ¬ (((DecodeExecute keyState18 0xE19E 0).map Chip8.PC =
        some ((keyState18.PC + 2) % 65536)) ↔
      Nat.testBit keyState18.KEYBOARD (15 - keyState18.V 1 % 16) = true) := by
  decide

/-- Whether the inner-loop iteration for row dy, index i inverts cell j:
its sprite bit is set and j is its target location. -/
def pixelFlip (vx vy dy v i j : Nat) : Bool :=
  Nat.testBit v (7 - i) && decide (j = locOf vx vy dy i)

/-- Parity of inversions of cell j over inner-loop indices i, ..., i+fuel-1. -/
def rowFlipsAux (vx vy dy v : Nat) : Nat → Nat → Nat → Bool
  | _, 0, _ => false
  | i, fuel + 1, j =>
    Bool.xor (pixelFlip vx vy dy v i j) (rowFlipsAux vx vy dy v (i + 1) fuel j)

/-- Parity of inversions of cell j over a whole sprite starting at row dy. -/
def spriteFlips (vx vy : Nat) : Nat → List Nat → Nat → Bool
  | _, [], _ => false
  | dy, v :: rest, j =>
    Bool.xor (rowFlipsAux vx vy dy v 0 8 j) (spriteFlips vx vy (dy + 1) rest j)

/-- Whether the iteration for row dy, index i collides against framebuffer
fb: its sprite bit is set and its target cell is lit in fb. -/
def pixelHit (vx vy dy v i : Nat) (fb : Nat → Bool) : Bool :=
  Nat.testBit v (7 - i) && fb (locOf vx vy dy i)

/-- Whether some iteration among indices i, ..., i+fuel-1 collides against fb. -/
def rowHitAux (vx vy dy v : Nat) (fb : Nat → Bool) : Nat → Nat → Bool
  | _, 0 => false
  | i, fuel + 1 => pixelHit vx vy dy v i fb || rowHitAux vx vy dy v fb (i + 1) fuel

/-- Whether some set sprite bit of the sprite starting at row dy targets a
cell lit in fb. -/
def spriteHit (vx vy : Nat) : Nat → List Nat → (Nat → Bool) → Bool
  | _, [], _ => false
  | dy, v :: rest, fb => rowHitAux vx vy dy v fb 0 8 || spriteHit vx vy (dy + 1) rest fb

/-- Whether some set sprite bit of row dy targets cell j, over indices
i, ..., i+fuel-1. -/
def rowTouchAux (vx vy dy v : Nat) : Nat → Nat → Nat → Bool
  | _, 0, _ => false
  | i, fuel + 1, j => pixelFlip vx vy dy v i j || rowTouchAux vx vy dy v (i + 1) fuel j

/-- Whether some set sprite bit of the sprite starting at row dy targets
cell j. -/
def touches (vx vy : Nat) : Nat → List Nat → Nat → Bool
  | _, [], _ => false
  | dy, v :: rest, j => rowTouchAux vx vy dy v 0 8 j || touches vx vy (dy + 1) rest j

theorem drawPixel_fb (vx vy dy v i : Nat) (p : (Nat → Bool) × Nat) (j : Nat) :
    (drawPixel vx vy dy v i p).1 j = Bool.xor (p.1 j) (pixelFlip vx vy dy v i j) := by
  unfold drawPixel pixelFlip
  by_cases hb : Nat.testBit v (7 - i)
  · simp only [hb, if_true, ite_true, Bool.true_and]
    by_cases hj : j = locOf vx vy dy i
    · subst hj; simp
    · simp [hj]
  · simp [hb]

theorem drawPixelsAux_fb (vx vy dy v : Nat) :
    ∀ (fuel i : Nat) (p : (Nat → Bool) × Nat) (j : Nat),
      (drawPixelsAux vx vy dy v i fuel p).1 j =
        Bool.xor (p.1 j) (rowFlipsAux vx vy dy v i fuel j)
  | 0, i, p, j => by simp [drawPixelsAux, rowFlipsAux]
  | fuel + 1, i, p, j => by
    rw [drawPixelsAux, rowFlipsAux, drawPixelsAux_fb vx vy dy v fuel (i + 1) _ j,
      drawPixel_fb]
    cases p.1 j <;> cases pixelFlip vx vy dy v i j <;>
      cases rowFlipsAux vx vy dy v (i + 1) fuel j <;> rfl

theorem drawRows_fb (vx vy : Nat) :
    ∀ (l : List Nat) (dy : Nat) (p : (Nat → Bool) × Nat) (j : Nat),
      (drawRows vx vy dy l p).1 j = Bool.xor (p.1 j) (spriteFlips vx vy dy l j)
  | [], dy, p, j => by simp [drawRows, spriteFlips]
  | v :: rest, dy, p, j => by
    rw [drawRows, spriteFlips, drawRows_fb vx vy rest (dy + 1) _ j, drawPixelsAux_fb]
    cases p.1 j <;> cases rowFlipsAux vx vy dy v 0 8 j <;>
      cases spriteFlips vx vy (dy + 1) rest j <;> rfl

theorem drawPixel_vf (vx vy dy v i : Nat) (p : (Nat → Bool) × Nat) :
    (drawPixel vx vy dy v i p).2 = if pixelHit vx vy dy v i p.1 = true then 1 else p.2 := by
  unfold drawPixel pixelHit
  by_cases hb : Nat.testBit v (7 - i) <;> simp [hb]

theorem locOf_ne_of_index_ne (vx vy dy : Nat) {i k : Nat}
    (hi : i < 8) (hk : k < 8) (hne : i ≠ k) :
    locOf vx vy dy i ≠ locOf vx vy dy k := by
  unfold locOf; omega

theorem locOf_ne_of_row_ne (vx vy : Nat) {d1 d2 : Nat} (i1 i2 : Nat)
    (h : (vy + d1) % 32 ≠ (vy + d2) % 32) :
    locOf vx vy d1 i1 ≠ locOf vx vy d2 i2 := by
  unfold locOf; omega

theorem rowHitAux_congr (vx vy dy v : Nat) (fb fb2 : Nat → Bool) :
    ∀ (fuel i : Nat),
      (∀ k, i ≤ k → k < i + fuel → fb (locOf vx vy dy k) = fb2 (locOf vx vy dy k)) →
      rowHitAux vx vy dy v fb i fuel = rowHitAux vx vy dy v fb2 i fuel
  | 0, i, _ => rfl
  | fuel + 1, i, h => by
    rw [rowHitAux, rowHitAux,
      rowHitAux_congr vx vy dy v fb fb2 fuel (i + 1) (fun k hk1 hk2 => h k (by omega) (by omega))]
    unfold pixelHit
    rw [h i (by omega) (by omega)]

theorem rowFlipsAux_false (vx vy dy v : Nat) :
    ∀ (fuel i j : Nat), (∀ k, i ≤ k → k < i + fuel → j ≠ locOf vx vy dy k) →
      rowFlipsAux vx vy dy v i fuel j = false
  | 0, i, j, _ => rfl
  | fuel + 1, i, j, h => by
    rw [rowFlipsAux, rowFlipsAux_false vx vy dy v fuel (i + 1) j
      (fun k hk1 hk2 => h k (by omega) (by omega))]
    unfold pixelFlip
    rw [decide_eq_false (h i (by omega) (by omega))]
    cases Nat.testBit v (7 - i) <;> rfl

theorem drawPixelsAux_vf (vx vy dy v : Nat) :
    ∀ (fuel i : Nat) (p : (Nat → Bool) × Nat), i + fuel ≤ 8 →
      (drawPixelsAux vx vy dy v i fuel p).2 =
        if rowHitAux vx vy dy v p.1 i fuel = true then 1 else p.2
  | 0, i, p, _ => by simp [drawPixelsAux, rowHitAux]
  | fuel + 1, i, p, hle => by
    rw [drawPixelsAux, rowHitAux,
      drawPixelsAux_vf vx vy dy v fuel (i + 1) _ (by omega)]
    have hcongr : rowHitAux vx vy dy v (drawPixel vx vy dy v i p).1 (i + 1) fuel =
        rowHitAux vx vy dy v p.1 (i + 1) fuel := by
      apply rowHitAux_congr
      intro k hk1 hk2
      rw [drawPixel_fb]
      unfold pixelFlip
      rw [decide_eq_false (locOf_ne_of_index_ne vx vy dy (by omega) (by omega) (by omega))]
      cases Nat.testBit v (7 - i) <;> cases p.1 (locOf vx vy dy k) <;> rfl
    rw [hcongr, drawPixel_vf]
    cases pixelHit vx vy dy v i p.1 <;> cases rowHitAux vx vy dy v p.1 (i + 1) fuel <;> simp

theorem spriteHit_congr (vx vy : Nat) :
    ∀ (l : List Nat) (dy : Nat) (fb fb2 : Nat → Bool),
      (∀ d idx, dy ≤ d → d < dy + l.length → idx < 8 →
        fb (locOf vx vy d idx) = fb2 (locOf vx vy d idx)) →
      spriteHit vx vy dy l fb = spriteHit vx vy dy l fb2
  | [], dy, fb, fb2, _ => rfl
  | v :: rest, dy, fb, fb2, h => by
    rw [spriteHit, spriteHit,
      spriteHit_congr vx vy rest (dy + 1) fb fb2
        (fun d idx hd1 hd2 hidx => h d idx (by omega) (by simp at hd2 ⊢; omega) hidx),
      rowHitAux_congr vx vy dy v fb fb2 8 0
        (fun k hk1 hk2 => h dy k (by omega) (by simp only [List.length_cons]; omega) (by omega))]

theorem drawRows_vf (vx vy : Nat) :
    ∀ (l : List Nat) (dy : Nat) (p : (Nat → Bool) × Nat), l.length ≤ 32 →
      (drawRows vx vy dy l p).2 = if spriteHit vx vy dy l p.1 = true then 1 else p.2
  | [], dy, p, _ => by simp [drawRows, spriteHit]
  | v :: rest, dy, p, hlen => by
    rw [drawRows, spriteHit,
      drawRows_vf vx vy rest (dy + 1) _ (by simp at hlen ⊢; omega)]
    have hlen2 : rest.length ≤ 31 := by simp at hlen; omega
    have hcongr : spriteHit vx vy (dy + 1) rest (drawPixelsAux vx vy dy v 0 8 p).1 =
        spriteHit vx vy (dy + 1) rest p.1 := by
      apply spriteHit_congr
      intro d idx hd1 hd2 hidx
      rw [drawPixelsAux_fb]
      rw [rowFlipsAux_false vx vy dy v 8 0 (locOf vx vy d idx)
        (fun k hk1 hk2 => locOf_ne_of_row_ne vx vy idx k (by omega))]
      cases p.1 (locOf vx vy d idx) <;> rfl
    rw [hcongr, drawPixelsAux_vf vx vy dy v 8 0 p (by omega)]
    cases rowHitAux vx vy dy v p.1 0 8 <;> cases spriteHit vx vy (dy + 1) rest p.1 <;> simp

/-- C5 (amended): drawing any sprite twice at the same origin restores
every framebuffer cell (XOR self-inverse); and for sprites of at most 32
rows (every sprite the Dxyn opcode can produce) the flag register after the
second draw is 1 exactly when some set sprite bit targets a cell still lit
after the first draw, which the second pass then erases. -/
theorem draw_twice_restores_and_collision_flag (s : Chip8) (vx vy : Nat)
    (bytes : List Nat) :
    (∀ j, (DrawSprite (DrawSprite s vx vy bytes) vx vy bytes).FRAMEBUFFER j =
      s.FRAMEBUFFER j) ∧
    (bytes.length ≤ 32 →
      ((DrawSprite (DrawSprite s vx vy bytes) vx vy bytes).V 15 = 1 ↔
        spriteHit vx vy 0 bytes (DrawSprite s vx vy bytes).FRAMEBUFFER = true)) := by
  constructor
  · intro j
    simp only [DrawSprite]
    rw [drawRows_fb, drawRows_fb]
    show Bool.xor (Bool.xor (s.FRAMEBUFFER j) (spriteFlips vx vy 0 bytes j))
      (spriteFlips vx vy 0 bytes j) = s.FRAMEBUFFER j
    cases s.FRAMEBUFFER j <;> cases spriteFlips vx vy 0 bytes j <;> rfl
  · intro hlen
    simp only [DrawSprite, updF]
    rw [drawRows_vf vx vy bytes 0 _ hlen]
    cases h : spriteHit vx vy 0 bytes ((drawRows vx vy 0 bytes (s.FRAMEBUFFER, 0)).1) <;>
      simp [h]

/-- Witness for C5 at a concrete input: an 8x1 sprite drawn twice at the
wrapping origin (60, 0) restores cell 0, and the flag equivalence holds. -/
theorem draw_twice_restores_and_collision_flag_witness :
    (DrawSprite (DrawSprite zeroState 60 0 [255]) 60 0 [255]).FRAMEBUFFER 0 =
      zeroState.FRAMEBUFFER 0 ∧
    ((DrawSprite (DrawSprite zeroState 60 0 [255]) 60 0 [255]).V 15 = 1 ↔
      spriteHit 60 0 0 [255] (DrawSprite zeroState 60 0 [255]).FRAMEBUFFER = true) :=
  ⟨(draw_twice_restores_and_collision_flag zeroState 60 0 [255]).1 0,
   (draw_twice_restores_and_collision_flag zeroState 60 0 [255]).2 (by decide)⟩

/-- A 33-row sprite whose first and last rows target the same display row
because the y coordinate wraps modulo 32. -/
def aliasingSprite : List Nat := [128] ++ List.replicate 31 0 ++ [128]

/-- Counterexample for C5 as stated (over every sprite byte list): with the
33-row aliasing sprite on a cleared display, the first draw lights cell 0
and then erases it again, so no pixel is lit after the first draw, yet the
second draw still reports a collision, because its own first row relights
the cell that its last row then erases. -/
theorem draw_twice_flag_claim_false_for_tall_sprite :
    ¬ (((DrawSprite (DrawSprite zeroState 0 0 aliasingSprite) 0 0 aliasingSprite).V 15 = 1) ↔
      spriteHit 0 0 0 aliasingSprite
        (DrawSprite zeroState 0 0 aliasingSprite).FRAMEBUFFER = true) := by
  decide

theorem rowFlips_false_of_touch_false (vx vy dy v : Nat) :
    ∀ (fuel i j : Nat), rowTouchAux vx vy dy v i fuel j = false →
      rowFlipsAux vx vy dy v i fuel j = false
  | 0, _, _, _ => rfl
  | fuel + 1, i, j, h => by
    rw [rowTouchAux] at h
    simp only [Bool.or_eq_false_iff] at h
    rw [rowFlipsAux, h.1, rowFlips_false_of_touch_false vx vy dy v fuel (i + 1) j h.2]
    rfl

theorem spriteFlips_false_of_touch_false (vx vy : Nat) :
    ∀ (l : List Nat) (dy j : Nat), touches vx vy dy l j = false →
      spriteFlips vx vy dy l j = false
  | [], _, _, _ => rfl
  | v :: rest, dy, j, h => by
    rw [touches] at h
    simp only [Bool.or_eq_false_iff] at h
    rw [spriteFlips, rowFlips_false_of_touch_false vx vy dy v 8 0 j h.1,
      spriteFlips_false_of_touch_false vx vy rest (dy + 1) j h.2]
    rfl

/-- C10: the sprite draw mutates only framebuffer cells targeted by a set
sprite bit (at wrapped coordinates) plus register 0xF; every untargeted
cell, every register below 15, and every other machine-state field is left
unchanged. -/
theorem drawSprite_frame_effect (s : Chip8) (vx vy : Nat) (bytes : List Nat) :
    (∀ j, touches vx vy 0 bytes j = false →
      (DrawSprite s vx vy bytes).FRAMEBUFFER j = s.FRAMEBUFFER j) ∧
    (∀ i, i ≠ 15 → (DrawSprite s vx vy bytes).V i = s.V i) ∧
    (DrawSprite s vx vy bytes).I = s.I ∧ (DrawSprite s vx vy bytes).PC = s.PC ∧
    (DrawSprite s vx vy bytes).SP = s.SP ∧ (DrawSprite s vx vy bytes).DT = s.DT ∧
    (DrawSprite s vx vy bytes).ST = s.ST ∧ (DrawSprite s vx vy bytes).STACK = s.STACK ∧
    (DrawSprite s vx vy bytes).RAM = s.RAM ∧
    (DrawSprite s vx vy bytes).KEYBOARD = s.KEYBOARD := by
  refine ⟨?_, ?_, rfl, rfl, rfl, rfl, rfl, rfl, rfl, rfl⟩
  · intro j htouch
    simp only [DrawSprite]
    rw [drawRows_fb, spriteFlips_false_of_touch_false vx vy bytes 0 j htouch]
    show Bool.xor (s.FRAMEBUFFER j) false = s.FRAMEBUFFER j
    cases s.FRAMEBUFFER j <;> rfl
  · intro i hi
    simp only [DrawSprite, updF]
    rw [if_neg hi]

/-- Witness for C10 at a concrete input: a one-row sprite at the origin
leaves the untargeted cell 100 and register 0 unchanged. -/
theorem drawSprite_frame_effect_witness :
    (DrawSprite zeroState 0 0 [128]).FRAMEBUFFER 100 = zeroState.FRAMEBUFFER 100 ∧
    (DrawSprite zeroState 0 0 [128]).V 0 = zeroState.V 0 ∧
    (DrawSprite zeroState 0 0 [128]).RAM = zeroState.RAM :=
  ⟨(drawSprite_frame_effect zeroState 0 0 [128]).1 100 (by decide),
   (drawSprite_frame_effect zeroState 0 0 [128]).2.1 0 (by decide),
   (drawSprite_frame_effect zeroState 0 0 [128]).2.2.2.2.2.2.2.2.1⟩

/-- Modelled from the specification, 4.2 taken verbatim: one XOR of sprite
pixel dx of row byte v (pixels counted left to right, so pixel dx is bit
7 - dx) onto the display cell at ((vx+dx) mod 64, (vy+dy) mod 32), the
modulo applied to the untruncated sums. -/
def xorBlitPixel (vx vy dy v dx : Nat) (fb : Nat → Bool) : Nat → Bool :=
  fun j => if j = ((vy + dy) % 32) * 64 + (vx + dx) % 64
    then Bool.xor (fb j) (Nat.testBit v (7 - dx)) else fb j

/-- Modelled from the specification: XOR the pixels dx, ..., dx+fuel-1 of
one sprite row onto the display. -/
def xorBlitRowAux (vx vy dy v : Nat) : Nat → Nat → (Nat → Bool) → Nat → Bool
  | _, 0, fb => fb
  | dx, fuel + 1, fb => xorBlitRowAux vx vy dy v (dx + 1) fuel (xorBlitPixel vx vy dy v dx fb)

/-- Modelled from the specification: XOR a whole sprite onto the display,
8 pixels per row, rows counted from dy. -/
def xorBlit (vx vy : Nat) : Nat → List Nat → (Nat → Bool) → Nat → Bool
  | _, [], fb => fb
  | dy, v :: rest, fb => xorBlit vx vy (dy + 1) rest (xorBlitRowAux vx vy dy v 0 8 fb)

theorem drawPixel_eq_xorBlitPixel (vx vy dy v i : Nat) (p : (Nat → Bool) × Nat)
    (fb : Nat → Bool) (hfb : ∀ j, p.1 j = fb j) (j : Nat) :
    (drawPixel vx vy dy v i p).1 j = xorBlitPixel vx vy dy v i fb j := by
  have hloc : locOf vx vy dy i = ((vy + dy) % 32) * 64 + (vx + i) % 64 := by
    unfold locOf; omega
  unfold drawPixel xorBlitPixel
  rw [hloc]
  by_cases hb : Nat.testBit v (7 - i)
  · by_cases hj : j = ((vy + dy) % 32) * 64 + (vx + i) % 64 <;> simp [hb, hj, hfb]
  · simp [hb, hfb]

theorem drawPixelsAux_eq_xorBlitRowAux (vx vy dy v : Nat) :
    ∀ (fuel i : Nat) (p : (Nat → Bool) × Nat) (fb : Nat → Bool),
      (∀ j, p.1 j = fb j) → ∀ j,
      (drawPixelsAux vx vy dy v i fuel p).1 j = xorBlitRowAux vx vy dy v i fuel fb j
  | 0, i, p, fb, hfb, j => by rw [drawPixelsAux, xorBlitRowAux]; exact hfb j
  | fuel + 1, i, p, fb, hfb, j => by
    rw [drawPixelsAux, xorBlitRowAux]
    exact drawPixelsAux_eq_xorBlitRowAux vx vy dy v fuel (i + 1) _ _
      (drawPixel_eq_xorBlitPixel vx vy dy v i p fb hfb) j

theorem drawRows_eq_xorBlit (vx vy : Nat) :
    ∀ (l : List Nat) (dy : Nat) (p : (Nat → Bool) × Nat) (fb : Nat → Bool),
      (∀ j, p.1 j = fb j) → ∀ j,
      (drawRows vx vy dy l p).1 j = xorBlit vx vy dy l fb j
  | [], dy, p, fb, hfb, j => by rw [drawRows, xorBlit]; exact hfb j
  | v :: rest, dy, p, fb, hfb, j => by
    rw [drawRows, xorBlit]
    exact drawRows_eq_xorBlit vx vy rest (dy + 1) _ _
      (drawPixelsAux_eq_xorBlitRowAux vx vy dy v 8 0 p fb hfb) j

/-- C4: the sprite draw is the spec compositor, XORing sprite pixel dx of
row dy onto the display cell at ((vx+dx) mod 64, (vy+dy) mod 32); in
particular an all-set 8x1 sprite drawn at origin (60, 0) on a cleared
display lights exactly the cells of row 0 at columns 60, 61, 62, 63 and
0, 1, 2, 3. -/
theorem drawSprite_is_spec_xor_blit (s : Chip8) (vx vy : Nat) (bytes : List Nat) :
    (∀ j, (DrawSprite s vx vy bytes).FRAMEBUFFER j = xorBlit vx vy 0 bytes s.FRAMEBUFFER j) ∧
    ((List.range 2048).all (fun j =>
      (DrawSprite zeroState 60 0 [255]).FRAMEBUFFER j ==
        decide (j = 60 ∨ j = 61 ∨ j = 62 ∨ j = 63 ∨ j = 0 ∨ j = 1 ∨ j = 2 ∨ j = 3)) = true) := by
  constructor
  · intro j
    simp only [DrawSprite]
    exact drawRows_eq_xorBlit vx vy bytes 0 _ _ (fun _ => rfl) j
  · decide

end Chip8Emu
